import Mathlib

/-!
# Verification of the discordshim relay core

A shallow embedding of `src/server.rs` (and, where that file calls into code
of this repository that is not among the sources, spec-modelled definitions)
together with proofs of the specification's claims about it.

Bytes are modelled as `Nat` values; streams are finite lists of bytes (end of
list = end of stream, so a `read_exact` past the end is the read error the
real code sees at EOF / disconnect). Rust `&str`/`String` values are modelled
as `List Char`. Recursions that must evaluate on concrete inputs are written
with explicit fuel (always instantiated with enough fuel by a wrapper, and
proved fuel-irrelevant).

External collaborators are parameters: the serenity chat adapter's send calls
are an oracle `sendOk : Nat → Bool` giving the success of the n-th platform
call of a dispatch, protobuf parsing (`messages.rs` is generated code) is a
parameter `decode`, and `embedbuilder::build_embeds` (not among the sources)
is a parameter `buildEmbeds`.
-/

namespace DiscordShim

/-! ## Frame codec

`connection_loop` reads a 4-byte little-endian length and then that many
payload bytes (src/server.rs lines 143-162); `_send_data` writes the 4-byte
little-endian length of the payload and then the payload itself (lines
308-327). -/

/-- The four bytes `LittleEndian::write_u32` produces for `n` (the Rust code
casts `data.len() as u32`, i.e. the value is taken mod 2^32, which the four
bytes do automatically). -/
def encodeLE32 (n : Nat) : List Nat :=
  [n % 256, n / 256 % 256, n / 2 ^ 16 % 256, n / 2 ^ 24 % 256]

/-- `LittleEndian::read_u32` on four bytes. -/
def decodeLE32 (b0 b1 b2 b3 : Nat) : Nat :=
  b0 + 256 * b1 + 2 ^ 16 * b2 + 2 ^ 24 * b3

/-- Writing one frame: the 4-byte little-endian length prefix followed by the
payload (`_send_data`, lines 308-327). -/
def writeFrame (payload : List Nat) : List Nat :=
  encodeLE32 payload.length ++ payload

/-- Reading one frame from the head of a byte stream, as `connection_loop`
does: `read_exact` of 4 length bytes, then `read_exact` of that many payload
bytes; a short read of either segment is an error (`none`). -/
def readFrame : List Nat → Option (List Nat)
  | b0 :: b1 :: b2 :: b3 :: rest =>
      let len := decodeLE32 b0 b1 b2 b3
      if rest.length < len then none else some (rest.take len)
  | _ => none

/-! ## Message schema

The protobuf message types of `messages.rs` (generated code, not among the
sources) as used by `server.rs`. -/

/-- `messages::ProtoFile`: a filename and raw bytes. -/
structure ProtoFile where
  filename : List Char
  data : List Nat
deriving DecidableEq

/-- A text field of an embed (`EmbedContent.textfield` entries, used at
src/server.rs lines 237-239). -/
structure TextField where
  title : List Char
  text : List Char
  inline : Bool
deriving DecidableEq

/-- A snapshot attachment of an embed (used at src/server.rs lines 219-226). -/
structure Snapshot where
  filename : List Char
  data : List Nat
deriving DecidableEq

/-- `messages::EmbedContent` as used by `server.rs`. -/
structure EmbedContent where
  title : List Char
  description : List Char
  color : Nat
  author : List Char
  textfield : List TextField
  snapshot : Option Snapshot
deriving DecidableEq

/-- An `EmbedContent` with every field empty (`EmbedContent::new()`). -/
def EmbedContent.new : EmbedContent :=
  ⟨[], [], 0, [], [], none⟩

/-- The payload of a `Settings` response (src/server.rs lines 289-295). -/
structure SettingsMsg where
  channel_id : Nat
  commandPrefix : List Char
  cycle_time : Int
  presence_enabled : Bool
deriving DecidableEq

/-- The tagged union `messages::response::Field`. -/
inductive ResponseField where
  | File : ProtoFile → ResponseField
  | Embed : EmbedContent → ResponseField
  | Presence : List Char → ResponseField
  | Settings : SettingsMsg → ResponseField
deriving DecidableEq

/-- `messages::Response`: an optional tagged payload. -/
structure Response where
  field : Option ResponseField
deriving DecidableEq

/-! ## Session state and registry

`DiscordSettings` (src/server.rs lines 30-39) is the per-connection state.
The `Arc` pointer identity used by `Arc::ptr_eq` is modelled by an `id`
field; the TCP stream is modelled by the list of bytes written to it so far
plus two flags giving the outcomes of the two `write_all` calls of
`_send_data`. The registry is the `clients` vector: insertion at the front
(`insert(0, _)`) and identity-based removal (`retain(!ptr_eq)`). -/

structure DiscordSettings where
  /-- Stands for the `Arc<DiscordSettings>` pointer identity. -/
  id : Nat
  /-- `channel: RwLock<ChannelId>`; 0 is the unset sentinel. -/
  channel : Nat
  /-- `prefix: Mutex<String>`. -/
  commandPrefix : List Char
  /-- `cycle_time: Mutex<i32>`. -/
  cycle_time : Int
  /-- `enabled: Mutex<bool>`. -/
  enabled : Bool
  /-- `num_messages: Mutex<u64>`. -/
  num_messages : Nat
  /-- `total_data: Mutex<u64>`. -/
  total_data : Nat
  /-- Bytes written to `tcpstream` so far (model of the socket). -/
  sent : List Nat
  /-- Whether `write_all(length_buf)` on this session's stream succeeds. -/
  lenWriteOk : Bool
  /-- Whether `write_all(&data)` on this session's stream succeeds. -/
  dataWriteOk : Bool
deriving DecidableEq

/-- `c.lock().await.insert(0, settings.clone())` (src/server.rs line 98). -/
def register (clients : List DiscordSettings) (s : DiscordSettings) :
    List DiscordSettings :=
  s :: clients

/-- `c.lock().await.retain(|item| !Arc::ptr_eq(item, &settings))`
(src/server.rs lines 104-106): identity-based removal. -/
def deregister (clients : List DiscordSettings) (sid : Nat) :
    List DiscordSettings :=
  clients.filter (fun cl => cl.id != sid)

/-! ## Outbound routing: `_send_data` (src/server.rs lines 308-332) -/

/-- One iteration of the `for client in c.as_slice()` loop: if the target
channel is not the sentinel 0 and equals the client's channel, write the
length prefix (on failure log and `continue`), then the payload (likewise),
then count the client as reached. -/
def sendDataClient (channel : Nat) (lengthBuf data : List Nat)
    (cl : DiscordSettings) : DiscordSettings × Nat :=
  if channel ≠ 0 ∧ channel = cl.channel then
    if cl.lenWriteOk = false then (cl, 0)
    else if cl.dataWriteOk = false then
      ({ cl with sent := cl.sent ++ lengthBuf }, 0)
    else ({ cl with sent := cl.sent ++ lengthBuf ++ data }, 1)
  else (cl, 0)

/-- `_send_data`: write the 4-byte little-endian length and the payload to
every registered client whose channel matches, counting the clients fully
reached; returns the updated clients and the count `found`. -/
def _send_data (channel : Nat) (data : List Nat)
    (clients : List DiscordSettings) : List DiscordSettings × Nat :=
  let lengthBuf := encodeLE32 data.length
  clients.foldl
    (fun acc cl =>
      let r := sendDataClient channel lengthBuf data cl
      (acc.1 ++ [r.1], acc.2 + r.2))
    ([], 0)

/-! ## Presence throttle: `update_presence` (src/server.rs lines 117-135) -/

/-- The streaming-presence text `format!("to {} instances", num_servers)`. -/
def presenceText (num_servers : Nat) : List Char :=
  ("to " ++ toString num_servers ++ " instances").data

/-- `update_presence`: under the `last_presense_update` lock, if fewer than
60 seconds have elapsed do nothing; otherwise, when the `CLOUD_SERVER`
environment variable is set issue one status update, and in either case
record the current time. Returns the new timestamp and the issued update, if
any.  Time is in whole seconds (`Duration::as_secs`). -/
def update_presence (cloudServer : Bool) (now : Nat)
    (last_presense_update : Nat) (num_servers : Nat) :
    Nat × Option (List Char) :=
  if now - last_presense_update < 60 then (last_presense_update, none)
  else
    (now, if cloudServer then some (presenceText num_servers) else none)

/-! ## File splitting (spec-modelled) -/

/-- Modelled from the spec: `split_file` lives in `src/embedbuilder.rs`,
which is not among the sources (only `server.rs` and `main.rs` are). §4.3 of
the spec: chunks of at most the attachment-size ceiling, taken in order.
Written with explicit fuel so concrete inputs evaluate; each step consumes at
least one byte, so fuel `data.length` always suffices. -/
def chunksScan (ceiling : Nat) : Nat → List Nat → List (List Nat)
  | 0, _ => []
  | _ + 1, [] => []
  | fuel + 1, x :: xs =>
      (x :: xs.take (ceiling - 1)) :: chunksScan ceiling fuel (xs.drop (ceiling - 1))

/-- The ceiling-sized chunks of `data`, in order. -/
def chunksOf (ceiling : Nat) (data : List Nat) : List (List Nat) :=
  chunksScan ceiling data.length data

/-- Modelled from the spec: the disambiguating label of the `n`-th of `M`
chunks, "name (part N/M)" (§4.3). -/
def partLabel (filename : List Char) (n M : Nat) : List Char :=
  filename ++ (" (part " ++ toString n ++ "/" ++ toString M ++ ")").data

/-- Modelled from the spec: `split_file` (src/embedbuilder.rs, not among the
sources): a file at or under the ceiling is one chunk labelled with the
unmodified filename; otherwise the ceiling-sized chunks in order, each
labelled "name (part N/M)". -/
def splitFile (ceiling : Nat) (filename : List Char) (data : List Nat) :
    List (List Char × List Nat) :=
  if data.length ≤ ceiling then [(filename, data)]
  else
    let chunks := chunksOf ceiling data
    chunks.enum.map (fun p => (partLabel filename (p.1 + 1) chunks.length, p.2))

/-! ## Mention extraction

`extract_mentions` (src/server.rs lines 378-391) iterates the matches of the
regex `(<@[0-9a-zA-Z]*>)` over the embed's title, then over its description,
appending each match followed by a single space. -/

/-- The successive matches `Regex::captures_iter` yields for the pattern
`(<@[0-9a-zA-Z]*>)`, with explicit fuel: at each position, try to match
`<@`, then a maximal alphanumeric run, then `>`; on success emit the matched
substring and resume after it, otherwise advance one character. Since `>` is
not in the class `[0-9a-zA-Z]` the greedy star never backtracks, so this
scan is exactly the regex's leftmost-first semantics. Every recursive call
shortens the string, so fuel `s.length` is always enough. -/
def mentionScan : Nat → List Char → List (List Char)
  | 0, _ => []
  | _ + 1, [] => []
  | fuel + 1, c1 :: rest1 =>
      if c1 = '<' ∧ rest1.head? = some '@' then
        match rest1.tail.dropWhile Char.isAlphanum with
        | '>' :: rest3 =>
            ('<' :: '@' :: (rest1.tail.takeWhile Char.isAlphanum ++ ['>'])) ::
              mentionScan fuel rest3
        | _ => mentionScan fuel rest1
      else mentionScan fuel rest1

/-- The full match list of `re.captures_iter` on a string. -/
def mentionMatches (s : List Char) : List (List Char) :=
  mentionScan s.length s

/-- `extract_mentions` (src/server.rs lines 378-391): start from the empty
string and, for each regex match of the title and then of the description,
append the match and a single space. -/
def extract_mentions (e : EmbedContent) : List Char :=
  (mentionMatches e.title ++ mentionMatches e.description).foldl
    (fun acc m => acc ++ m ++ [' ']) []

/-- The spec's pattern `<@` + alphanumerics + `>` as a predicate on strings. -/
def IsMentionToken (t : List Char) : Prop :=
  ∃ run, (∀ c ∈ run, Char.isAlphanum c) ∧ t = '<' :: '@' :: (run ++ ['>'])

/-! ## Dispatch: `handle_task` (src/server.rs lines 184-297) -/

/-- The external collaborators `handle_task` uses. -/
structure Env where
  /-- Whether `env::var("CLOUD_SERVER")` is set. -/
  cloudServer : Bool
  /-- The attachment-size ceiling `split_file` chunks against. -/
  splitCeiling : Nat
  /-- `embedbuilder::build_embeds` (not among the sources): splits an
  oversized embed into one or more embeds. -/
  buildEmbeds : EmbedContent → List EmbedContent
  /-- `protobuf::Message::compute_size` (generated code). -/
  computeSize : Response → Nat

/-- Outcome of one `handle_task` call: the updated session state, whether the
call returned `Ok` (an `Err` makes `connection_loop` exit), and how many
chat-platform calls were attempted. -/
structure TaskResult where
  settings : DiscordSettings
  ok : Bool
  sends : Nat
deriving DecidableEq

/-- The `for file in files` / `for e in embeds` send loops: attempt the
planned sends in order, stopping at the first failure (`return Err(())`).
Returns the number of attempted sends and whether all succeeded. -/
def sendLoop (sendOk : Nat → Bool) : Nat → Nat → Nat × Bool
  | _, 0 => (0, true)
  | i, n + 1 =>
      if sendOk i then
        let r := sendLoop sendOk (i + 1) n
        (r.1 + 1, r.2)
      else (1, false)

/-- `handle_task`: increment the message counter and the byte counter, then
dispatch on the payload kind. `File` sends each chunk of the split file;
`Embed` sends each embed `build_embeds` produced (with the extracted
mentions as content); `Presence` forwards the activity to the shard when
`CLOUD_SERVER` is NOT set; `Settings` updates the session's fields; an
absent payload is `Ok` with no sends. -/
def handle_task (env : Env) (sendOk : Nat → Bool) (s : DiscordSettings)
    (response : Response) : TaskResult :=
  let s1 := { s with
    num_messages := s.num_messages + 1,
    total_data := s.total_data + env.computeSize response }
  match response.field with
  | none => ⟨s1, true, 0⟩
  | some (.File protofile) =>
      let files := splitFile env.splitCeiling protofile.filename protofile.data
      let r := sendLoop sendOk 0 files.length
      ⟨s1, r.2, r.1⟩
  | some (.Embed response_embed) =>
      let embeds := env.buildEmbeds response_embed
      let r := sendLoop sendOk 0 embeds.length
      ⟨s1, r.2, r.1⟩
  | some (.Presence _) =>
      if env.cloudServer then ⟨s1, true, 0⟩ else ⟨s1, true, 1⟩
  | some (.Settings new_settings) =>
      ⟨{ s1 with
          channel := new_settings.channel_id,
          commandPrefix := new_settings.commandPrefix,
          cycle_time := new_settings.cycle_time,
          enabled := new_settings.presence_enabled }, true, 0⟩

/-! ## The per-connection frame loop: `connection_loop`
(src/server.rs lines 137-182) -/

/-- Why `connection_loop` returned. -/
inductive LoopExit where
  /-- `read_exact` of the 4 length bytes failed (EOF or I/O error). -/
  | readLenErr
  /-- `read_exact` of the payload failed. -/
  | readDataErr
  /-- `Response::parse_from_bytes` failed. -/
  | parseErr
  /-- `handle_task` returned `Err` (a platform delivery failure). -/
  | dispatchErr
deriving DecidableEq

/-- The frame loop with explicit fuel: read 4 length bytes, read the payload,
parse it, dispatch it; exit on the first error, otherwise repeat. `k` counts
the frames already processed (it indexes the per-frame send oracle). Each
iteration consumes at least 4 bytes, so fuel `stream.length + 1` always
suffices. -/
def connLoop (env : Env) (decode : List Nat → Option Response)
    (sendOk : Nat → Nat → Bool) :
    Nat → Nat → List Nat → DiscordSettings → DiscordSettings × LoopExit
  | 0, _, _, s => (s, .readLenErr)
  | fuel + 1, k, stream, s =>
      match stream with
      | b0 :: b1 :: b2 :: b3 :: rest =>
          let len := decodeLE32 b0 b1 b2 b3
          if rest.length < len then (s, .readDataErr)
          else
            match decode (rest.take len) with
            | none => (s, .parseErr)
            | some response =>
                let tr := handle_task env (sendOk k) s response
                if tr.ok then
                  connLoop env decode sendOk fuel (k + 1) (rest.drop len)
                    tr.settings
                else (tr.settings, .dispatchErr)
      | _ => (s, .readLenErr)

/-- `connection_loop` on a finite stream, starting at frame index `k`. -/
def connection_loop (env : Env) (decode : List Nat → Option Response)
    (sendOk : Nat → Nat → Bool) (k : Nat) (stream : List Nat)
    (s : DiscordSettings) : DiscordSettings × LoopExit :=
  connLoop env decode sendOk (stream.length + 1) k stream s

/-- One accepted connection as `run` handles it (src/server.rs lines
81-112): insert the new session at the front of the registry, run the
connection loop, then remove the session by `Arc` identity. Returns the
final registry, the session's final state and the loop's exit reason. -/
def run_connection (env : Env) (decode : List Nat → Option Response)
    (sendOk : Nat → Nat → Bool) (clients : List DiscordSettings)
    (stream : List Nat) (settings : DiscordSettings) :
    List DiscordSettings × DiscordSettings × LoopExit :=
  let c1 := register clients settings
  let r := connection_loop env decode sendOk 0 stream settings
  (deregister c1 settings.id, r)

/-! ## Theorems -/

theorem decodeLE32_encodeLE32 (n : Nat) (h : n < 2 ^ 32) :
    decodeLE32 (n % 256) (n / 256 % 256) (n / 2 ^ 16 % 256) (n / 2 ^ 24 % 256) = n := by
  have h24 : n / 2 ^ 24 % 256 = n / 2 ^ 24 := by
    apply Nat.mod_eq_of_lt
    exact Nat.div_lt_of_lt_mul (by omega)
  unfold decodeLE32
  rw [h24]
  omega

theorem readFrame_writeFrame (p : List Nat) (h : p.length < 2 ^ 32) :
    readFrame (writeFrame p) = some p := by
  simp only [writeFrame, encodeLE32, List.cons_append, List.nil_append, readFrame]
  rw [decodeLE32_encodeLE32 p.length h]
  simp

theorem readFrame_short (l : List Nat) (h : l.length < 4) : readFrame l = none := by
  cases l with
  | nil => rfl
  | cons a l =>
    cases l with
    | nil => rfl
    | cons b l =>
      cases l with
      | nil => rfl
      | cons c l =>
        cases l with
        | nil => rfl
        | cons d l => simp at h; omega

theorem readFrame_truncated (p : List Nat) (h : p.length < 2 ^ 32)
    (k : Nat) (hk : 0 < k) (hk2 : k ≤ (writeFrame p).length) :
    readFrame ((writeFrame p).take ((writeFrame p).length - k)) = none := by
  set w := writeFrame p with hw
  have hlen : w.length = 4 + p.length := by
    simp [hw, writeFrame, encodeLE32]
    omega
  by_cases hm : w.length - k < 4
  · exact readFrame_short _ (lt_of_le_of_lt (List.length_take_le _ _) hm)
  · push_neg at hm
    have hk3 : k ≤ p.length := by omega
    obtain ⟨b0, b1, b2, b3, hb⟩ :
        ∃ b0 b1 b2 b3, w = b0 :: b1 :: b2 :: b3 :: p ∧
          decodeLE32 b0 b1 b2 b3 = p.length := by
      refine ⟨_, _, _, _, ?_, decodeLE32_encodeLE32 p.length h⟩
      simp [hw, writeFrame, encodeLE32]
    obtain ⟨hb, hdec⟩ := hb
    rw [hb, show (b0 :: b1 :: b2 :: b3 :: p).length - k = 4 + (p.length - k) by
      rw [← hb]; omega]
    have htake : (b0 :: b1 :: b2 :: b3 :: p).take (4 + (p.length - k)) =
        b0 :: b1 :: b2 :: b3 :: p.take (p.length - k) := by
      simp [List.take_succ_cons, show 4 + (p.length - k) = ((((p.length - k) + 1) + 1) + 1) + 1 by omega]
    rw [htake]
    simp only [readFrame, hdec]
    rw [List.length_take, if_pos]
    omega

/-- C4: round-trip of the frame codec: reading a frame from the bytes produced
by writing a payload of length `L < 2^32` yields exactly the original payload,
and any truncation of those bytes by at least one byte yields a framing error
(`none`), never a silently short result. -/
theorem frame_roundtrip_and_truncation (p : List Nat) (h : p.length < 2 ^ 32) :
    readFrame (writeFrame p) = some p ∧
    ∀ k, 0 < k → k ≤ (writeFrame p).length →
      readFrame ((writeFrame p).take ((writeFrame p).length - k)) = none := by
  exact ⟨readFrame_writeFrame p h, fun k hk hk2 => readFrame_truncated p h k hk hk2⟩

/-- Witness for C4 at the concrete payload `[7, 8, 9]`, truncated by one byte. -/
theorem frame_roundtrip_and_truncation_witness :
    readFrame (writeFrame [7, 8, 9]) = some [7, 8, 9] ∧
    readFrame ((writeFrame [7, 8, 9]).take ((writeFrame [7, 8, 9]).length - 1)) = none := by
  have h := frame_roundtrip_and_truncation [7, 8, 9] (by decide)
  exact ⟨h.1, h.2 1 (by decide) (by decide)⟩

theorem foldl_append_eq_flatten (l : List (List Char)) (acc : List Char) :
    l.foldl (fun a m => a ++ m ++ [' ']) acc =
      acc ++ (l.map (fun m => m ++ [' '])).flatten := by
  induction l generalizing acc with
  | nil => simp
  | cons m l ih => rw [List.foldl_cons, ih]; simp

/-- In the interesting branch the matched tail is shorter than the scanned
string, so any fuel at least the string's length computes the same matches. -/
theorem mentionScan_fuel (fuel : Nat) :
    ∀ s : List Char, s.length ≤ fuel → mentionScan fuel s = mentionMatches s := by
  induction fuel using Nat.strong_induction_on with
  | _ fuel ih =>
    intro s hs
    rcases fuel with _ | fuel
    · have hnil : s = [] := by cases s <;> simp_all
      subst hnil; rfl
    · rcases s with _ | ⟨c1, rest1⟩
      · rfl
      · simp only [List.length_cons] at hs
        show mentionScan (fuel + 1) (c1 :: rest1) =
          mentionScan (rest1.length + 1) (c1 :: rest1)
        simp only [mentionScan]
        split
        · split
          · rename_i rest3 heq
            have hlen3 : rest3.length < rest1.length := by
              have h2 :=
                (List.dropWhile_sublist Char.isAlphanum (l := rest1.tail)).length_le
              rw [heq] at h2
              have h3 := rest1.length_tail
              simp at h2
              omega
            rw [ih fuel (by omega) rest3 (by omega),
              ih rest1.length (by omega) rest3 (by omega)]
          · rw [ih fuel (by omega) rest1 (by omega),
              ih rest1.length (by omega) rest1 (le_refl _)]
        · rw [ih fuel (by omega) rest1 (by omega),
            ih rest1.length (by omega) rest1 (le_refl _)]

theorem mentionMatches_nil : mentionMatches [] = [] := rfl

theorem dropWhile_tail_length (rest1 rest3 : List Char) (c : Char)
    (hdw : rest1.tail.dropWhile Char.isAlphanum = c :: rest3) :
    rest3.length < rest1.length := by
  have h2 := (List.dropWhile_sublist Char.isAlphanum (l := rest1.tail)).length_le
  rw [hdw] at h2
  have h3 := rest1.length_tail
  simp at h2
  omega

/-- Unfolding `mentionMatches` when a match begins at the head. -/
theorem mentionMatches_pos (c1 : Char) (rest1 rest3 : List Char)
    (hc : c1 = '<' ∧ rest1.head? = some '@')
    (hdw : rest1.tail.dropWhile Char.isAlphanum = '>' :: rest3) :
    mentionMatches (c1 :: rest1) =
      ('<' :: '@' :: (rest1.tail.takeWhile Char.isAlphanum ++ ['>'])) ::
        mentionMatches rest3 := by
  show mentionScan (rest1.length + 1) (c1 :: rest1) = _
  simp only [mentionScan]
  rw [if_pos hc]
  split
  · rename_i r3 heq
    rw [hdw] at heq
    obtain ⟨rfl⟩ : rest3 = r3 := by simpa using heq
    rw [mentionScan_fuel rest1.length rest3
      (le_of_lt (dropWhile_tail_length rest1 rest3 '>' hdw))]
  · rename_i hne
    exact absurd hdw (hne rest3)

/-- Unfolding `mentionMatches` when the head `<@` is present but no `>`
closes the alphanumeric run (the scan advances one character). -/
theorem mentionMatches_fall (c1 : Char) (rest1 : List Char)
    (h : ∀ rest3, rest1.tail.dropWhile Char.isAlphanum ≠ '>' :: rest3) :
    mentionMatches (c1 :: rest1) = mentionMatches rest1 := by
  show mentionScan (rest1.length + 1) (c1 :: rest1) = _
  simp only [mentionScan]
  split
  · exact mentionScan_fuel rest1.length rest1 (le_refl _)
  · exact mentionScan_fuel rest1.length rest1 (le_refl _)

/-- Unfolding `mentionMatches` when the head two characters are not `<@`. -/
theorem mentionMatches_other (c1 : Char) (rest1 : List Char)
    (h : ¬(c1 = '<' ∧ rest1.head? = some '@')) :
    mentionMatches (c1 :: rest1) = mentionMatches rest1 := by
  show mentionScan (rest1.length + 1) (c1 :: rest1) = _
  simp only [mentionScan]
  rw [if_neg h]
  exact mentionScan_fuel rest1.length rest1 (le_refl _)

theorem mentionMatches_sound_aux (n : Nat) :
    ∀ s : List Char, s.length ≤ n →
      ∀ m ∈ mentionMatches s, IsMentionToken m ∧ m <:+: s := by
  induction n with
  | zero =>
    intro s hs
    have hnil : s = [] := by cases s <;> simp_all
    subst hnil
    intro m hm
    rw [mentionMatches_nil] at hm
    simp at hm
  | succ n ihn =>
    intro s hs
    rcases s with _ | ⟨c1, rest1⟩
    · intro m hm
      rw [mentionMatches_nil] at hm
      simp at hm
    · simp only [List.length_cons] at hs
      by_cases hc : c1 = '<' ∧ rest1.head? = some '@'
      · rcases hdw : rest1.tail.dropWhile Char.isAlphanum with _ | ⟨c, rest3⟩
        · have h := mentionMatches_fall c1 rest1 (fun r3 hr => by
            rw [hdw] at hr; cases hr)
          intro m hm
          rw [h] at hm
          obtain ⟨ht, hinf⟩ := ihn rest1 (by omega) m hm
          exact ⟨ht, hinf.trans (List.suffix_cons c1 rest1).isInfix⟩
        · by_cases hgt : c = '>'
          · subst hgt
            intro m hm
            rw [mentionMatches_pos c1 rest1 rest3 hc hdw] at hm
            rcases List.mem_cons.mp hm with hm | hm
            · subst hm
              refine ⟨⟨rest1.tail.takeWhile Char.isAlphanum,
                fun ch hch => List.mem_takeWhile_imp hch, rfl⟩, ?_⟩
              obtain ⟨hc1, hhd⟩ := hc
              subst hc1
              have hr1 : rest1 = '@' :: rest1.tail := by
                cases rest1 with
                | nil => simp at hhd
                | cons a t => simp at hhd; rw [hhd]; rfl
              refine List.IsPrefix.isInfix ⟨rest3, ?_⟩
              conv_rhs => rw [hr1]
              simp only [List.cons_append]
              rw [List.append_assoc]
              simp only [List.singleton_append]
              rw [← hdw, List.takeWhile_append_dropWhile]
            · obtain ⟨ht, hinf⟩ := ihn rest3
                (by have := dropWhile_tail_length rest1 rest3 '>' hdw; omega) m hm
              refine ⟨ht, hinf.trans ?_⟩
              have h1 : rest3 <:+ '>' :: rest3 := List.suffix_cons _ _
              have h2 : rest1.tail.dropWhile Char.isAlphanum <:+ rest1.tail :=
                ⟨rest1.tail.takeWhile Char.isAlphanum,
                  List.takeWhile_append_dropWhile _ _⟩
              have h3 : rest1.tail <:+ rest1 := List.tail_suffix rest1
              have h4 : rest1 <:+ c1 :: rest1 := List.suffix_cons _ _
              exact ((h1.trans (hdw ▸ h2)).trans (h3.trans h4)).isInfix
          · have h := mentionMatches_fall c1 rest1 (fun r3 hr => by
              rw [hdw] at hr
              simp at hr
              exact hgt hr.1)
            intro m hm
            rw [h] at hm
            obtain ⟨ht, hinf⟩ := ihn rest1 (by omega) m hm
            exact ⟨ht, hinf.trans (List.suffix_cons c1 rest1).isInfix⟩
      · have h := mentionMatches_other c1 rest1 hc
        intro m hm
        rw [h] at hm
        obtain ⟨ht, hinf⟩ := ihn rest1 (by omega) m hm
        exact ⟨ht, hinf.trans (List.suffix_cons c1 rest1).isInfix⟩

/-- Every returned match is a mention token occurring in the input string. -/
theorem mentionMatches_sound (s : List Char) :
    ∀ m ∈ mentionMatches s, IsMentionToken m ∧ m <:+: s :=
  mentionMatches_sound_aux s.length s (le_refl _)

/-- A string containing no mention token yields no matches. -/
theorem mentionMatches_eq_nil_of_no_token (s : List Char)
    (h : ∀ t, IsMentionToken t → ¬ t <:+: s) : mentionMatches s = [] := by
  rcases hmm : mentionMatches s with _ | ⟨m, ms⟩
  · rfl
  · have hmem : m ∈ mentionMatches s := by
      rw [hmm]; exact List.mem_cons_self _ _
    obtain ⟨ht, hinf⟩ := mentionMatches_sound s m hmem
    exact absurd hinf (h m ht)

/-- C5: mention extraction returns the concatenation, in order of first
appearance in the title followed by the description, of the regex's mention
matches, each followed by a single space, with no deduplication; every match
is a substring of the form `<@` + alphanumerics + `>`; input containing no
such token yields the empty string; and the two concrete examples from the
spec: the title `<@12345678910> <@Everyone>` yields
`<@12345678910> <@Everyone> `, and the same text as the description with an
empty title yields the identical result. -/
theorem extract_mentions_spec :
    (∀ e : EmbedContent,
      extract_mentions e =
        ((mentionMatches e.title ++ mentionMatches e.description).map
          (fun m => m ++ [' '])).flatten) ∧
    (∀ (s : List Char), ∀ m ∈ mentionMatches s, IsMentionToken m ∧ m <:+: s) ∧
    (∀ s : List Char,
      (∀ t, IsMentionToken t → ¬ t <:+: s) → mentionMatches s = []) ∧
    extract_mentions
        { EmbedContent.new with title := "<@12345678910> <@Everyone>".data } =
      "<@12345678910> <@Everyone> ".data ∧
    extract_mentions
        { EmbedContent.new with
            description := "<@12345678910> <@Everyone>".data } =
      "<@12345678910> <@Everyone> ".data := by
  refine ⟨fun e => ?_, mentionMatches_sound, mentionMatches_eq_nil_of_no_token,
    by decide, by decide⟩
  rw [extract_mentions, foldl_append_eq_flatten]
  rfl

/-- Witness for C5: a two-character string cannot contain a mention token
(every token has at least three characters), so extraction finds nothing. -/
theorem extract_mentions_spec_witness : mentionMatches "xy".data = [] :=
  extract_mentions_spec.2.2.1 "xy".data (fun t ht hinf => by
    obtain ⟨run, _, rfl⟩ := ht
    have h1 := hinf.length_le
    simp at h1)

/-! ## Outbound routing -/

theorem _send_data_foldl (channel : Nat) (lb d : List Nat)
    (clients : List DiscordSettings) :
    ∀ (acc : List DiscordSettings) (n : Nat),
      clients.foldl
        (fun acc cl =>
          let r := sendDataClient channel lb d cl
          (acc.1 ++ [r.1], acc.2 + r.2)) (acc, n) =
      (acc ++ clients.map (fun cl => (sendDataClient channel lb d cl).1),
        n + (clients.map (fun cl => (sendDataClient channel lb d cl).2)).sum) := by
  induction clients with
  | nil => intro acc n; simp
  | cons cl rest ih =>
    intro acc n
    simp only [List.foldl_cons, List.map_cons, List.sum_cons]
    rw [ih]
    simp [List.append_assoc]
    omega

theorem sendDataClient_found (channel : Nat) (lb d : List Nat)
    (cl : DiscordSettings) :
    (sendDataClient channel lb d cl).2 =
      if channel ≠ 0 ∧ channel = cl.channel ∧ cl.lenWriteOk = true ∧
          cl.dataWriteOk = true then 1 else 0 := by
  by_cases h1 : channel ≠ 0 ∧ channel = cl.channel
  · obtain ⟨h0, hc⟩ := h1
    subst hc
    unfold sendDataClient
    rw [if_pos ⟨h0, rfl⟩]
    rcases hl : cl.lenWriteOk <;> rcases hd : cl.dataWriteOk <;>
      simp [hl, hd, h0]
  · unfold sendDataClient
    rw [if_neg h1, if_neg (fun h => h1 ⟨h.1, h.2.1⟩)]

theorem sum_indicator_eq_length_filter (p : DiscordSettings → Prop)
    [DecidablePred p] (l : List DiscordSettings) :
    (l.map (fun cl => if p cl then 1 else 0)).sum =
      (l.filter (fun cl => decide (p cl))).length := by
  induction l with
  | nil => rfl
  | cons a t ih =>
    simp only [List.map_cons, List.sum_cons, List.filter_cons]
    by_cases hp : p a
    · simp [hp, ih]
      omega
    · simp [hp, ih]

theorem _send_data_eq (channel : Nat) (data : List Nat)
    (clients : List DiscordSettings) :
    _send_data channel data clients =
      (clients.map
        (fun cl => (sendDataClient channel (encodeLE32 data.length) data cl).1),
       (clients.filter (fun cl => decide (channel ≠ 0 ∧ channel = cl.channel ∧
          cl.lenWriteOk = true ∧ cl.dataWriteOk = true))).length) := by
  unfold _send_data
  rw [_send_data_foldl]
  simp only [List.nil_append, Nat.zero_add]
  rw [show clients.map
        (fun cl => (sendDataClient channel (encodeLE32 data.length) data cl).2) =
      clients.map (fun cl => if channel ≠ 0 ∧ channel = cl.channel ∧
          cl.lenWriteOk = true ∧ cl.dataWriteOk = true then 1 else 0) from
    List.map_congr_left
      (fun cl _ => sendDataClient_found channel (encodeLE32 data.length) data cl)]
  rw [sum_indicator_eq_length_filter]

/-- C2: `_send_data` writes the 4-byte little-endian length prefix and the
payload to exactly the sessions whose channel equals the target (never when
the target is the sentinel 0); each session's outcome is independent of the
others (the result is a per-client map), so one session's write failure does
not prevent delivery to the rest; the produced count is the number of fully
successful matching sessions; and with sessions on channels `[5, 0, 5]`
routing to 5 reaches exactly 2 and routing to 0 reaches 0. -/
theorem send_data_spec :
    (∀ (channel : Nat) (data : List Nat) (clients : List DiscordSettings),
      _send_data channel data clients =
        (clients.map
          (fun cl => (sendDataClient channel (encodeLE32 data.length) data cl).1),
         (clients.filter (fun cl => decide (channel ≠ 0 ∧ channel = cl.channel ∧
            cl.lenWriteOk = true ∧ cl.dataWriteOk = true))).length)) ∧
    (∀ (channel : Nat) (data : List Nat) (cl : DiscordSettings),
      channel = 0 ∨ cl.channel ≠ channel →
      sendDataClient channel (encodeLE32 data.length) data cl = (cl, 0)) ∧
    (∀ (channel : Nat) (data : List Nat) (cl : DiscordSettings),
      channel ≠ 0 → cl.channel = channel →
      cl.lenWriteOk = true → cl.dataWriteOk = true →
      sendDataClient channel (encodeLE32 data.length) data cl =
        ({ cl with sent := cl.sent ++ writeFrame data }, 1)) ∧
    (∀ (data : List Nat) (clients : List DiscordSettings),
      _send_data 0 data clients = (clients, 0)) ∧
    (∀ (data : List Nat) (c1 c2 c3 : DiscordSettings),
      c1.channel = 5 → c2.channel = 0 → c3.channel = 5 →
      c1.lenWriteOk = true → c1.dataWriteOk = true →
      c3.lenWriteOk = true → c3.dataWriteOk = true →
      (_send_data 5 data [c1, c2, c3]).2 = 2 ∧
      (_send_data 0 data [c1, c2, c3]).2 = 0) := by
  refine ⟨_send_data_eq, ?_, ?_, ?_, ?_⟩
  · intro channel data cl h
    unfold sendDataClient
    rw [if_neg]
    rcases h with h | h
    · simp [h]
    · intro hc
      exact h hc.2.symm
  · intro channel data cl h0 hch hlen hdata
    unfold sendDataClient
    rw [if_pos ⟨h0, hch.symm⟩, if_neg (by simp [hlen]), if_neg (by simp [hdata])]
    rw [writeFrame, ← List.append_assoc]
  · intro data clients
    rw [_send_data_eq]
    simp only [Prod.mk.injEq]
    constructor
    · conv_rhs => rw [← List.map_id clients]
      apply List.map_congr_left
      intro cl _
      simp [sendDataClient]
    · simp
  · intro data c1 c2 c3 h1 h2 h3 h4 h5 h6 h7
    rw [_send_data_eq, _send_data_eq]
    constructor
    · simp [List.filter, h1, h2, h3, h4, h5, h6, h7]
    · simp [List.filter]

/-- Witness for C2: three concrete sessions on channels `[5, 0, 5]`. -/
theorem send_data_spec_witness :
    (_send_data 5 [9]
      [⟨1, 5, [], 0, false, 0, 0, [], true, true⟩,
       ⟨2, 0, [], 0, false, 0, 0, [], true, true⟩,
       ⟨3, 5, [], 0, false, 0, 0, [], true, true⟩]).2 = 2 ∧
    (_send_data 0 [9]
      [⟨1, 5, [], 0, false, 0, 0, [], true, true⟩,
       ⟨2, 0, [], 0, false, 0, 0, [], true, true⟩,
       ⟨3, 5, [], 0, false, 0, 0, [], true, true⟩]).2 = 0 :=
  send_data_spec.2.2.2.2 [9]
    ⟨1, 5, [], 0, false, 0, 0, [], true, true⟩
    ⟨2, 0, [], 0, false, 0, 0, [], true, true⟩
    ⟨3, 5, [], 0, false, 0, 0, [], true, true⟩
    rfl rfl rfl rfl rfl rfl rfl

/-! ## Registry membership and removal -/

theorem deregister_exactly_once (sid : Nat) :
    ∀ clients : List DiscordSettings,
      (clients.map DiscordSettings.id).Nodup →
      ∀ cl ∈ clients, cl.id = sid →
      (deregister clients sid).length + 1 = clients.length := by
  intro clients
  induction clients with
  | nil => intro _ cl hcl; simp at hcl
  | cons a t ih =>
    intro hnd cl hcl hid
    simp only [List.map_cons, List.nodup_cons] at hnd
    rcases List.mem_cons.mp hcl with rfl | hmem
    · rw [deregister, List.filter_cons, if_neg (by simp [hid])]
      rw [List.filter_eq_self.mpr]
      · simp
      · intro b hb
        simp only [bne_iff_ne, ne_eq]
        intro hbid
        exact hnd.1 (by rw [hid, ← hbid]; exact List.mem_map_of_mem _ hb)
    · have hane : a.id ≠ sid := by
        intro ha
        exact hnd.1 (by rw [ha, ← hid]; exact List.mem_map_of_mem _ hmem)
      rw [deregister, List.filter_cons, if_pos (by simp [hane])]
      simp only [List.length_cons]
      rw [← ih hnd.2 cl hmem hid]
      rfl

/-- C7: deregistration removes sessions matched by handle identity only: no
session with a different identity is ever removed (in particular one merely
sharing the channel id survives), removal is idempotent (removing an
already-removed session is a no-op), under distinct identities exactly one
entry is removed, and `run` deregisters the exiting session this way after
the connection loop returns, whatever the exit reason was. -/
theorem deregister_spec :
    (∀ (clients : List DiscordSettings) (sid : Nat),
      ∀ cl ∈ deregister clients sid, cl.id ≠ sid) ∧
    (∀ (clients : List DiscordSettings) (sid : Nat) (cl : DiscordSettings),
      cl ∈ clients → cl.id ≠ sid → cl ∈ deregister clients sid) ∧
    (∀ (clients : List DiscordSettings) (sid : Nat),
      deregister (deregister clients sid) sid = deregister clients sid) ∧
    (∀ (clients : List DiscordSettings) (sid : Nat),
      (clients.map DiscordSettings.id).Nodup →
      ∀ cl ∈ clients, cl.id = sid →
      (deregister clients sid).length + 1 = clients.length) ∧
    (∀ env decode sendOk (clients : List DiscordSettings) stream settings,
      (run_connection env decode sendOk clients stream settings).1 =
        deregister (register clients settings) settings.id) := by
  refine ⟨?_, ?_, ?_, fun clients sid => deregister_exactly_once sid clients,
    fun _ _ _ _ _ _ => rfl⟩
  · intro clients sid cl hcl
    have := (List.mem_filter.mp hcl).2
    simpa using this
  · intro clients sid cl hcl hne
    exact List.mem_filter.mpr ⟨hcl, by simpa using hne⟩
  · intro clients sid
    simp only [deregister, List.filter_filter]
    congr 1
    funext cl
    rw [Bool.and_self]

/-- Witness for C7: removing session 1 from a two-session registry whose
second session shares channel 5 removes exactly one entry and keeps the
channel-sharing session. -/
theorem deregister_spec_witness :
    (deregister
      [⟨1, 5, [], 0, false, 0, 0, [], true, true⟩,
       ⟨2, 5, [], 0, false, 0, 0, [], true, true⟩] 1).length + 1 = 2 ∧
    (⟨2, 5, [], 0, false, 0, 0, [], true, true⟩ : DiscordSettings) ∈
      deregister
        [⟨1, 5, [], 0, false, 0, 0, [], true, true⟩,
         ⟨2, 5, [], 0, false, 0, 0, [], true, true⟩] 1 :=
  ⟨deregister_spec.2.2.2.1
      [⟨1, 5, [], 0, false, 0, 0, [], true, true⟩,
       ⟨2, 5, [], 0, false, 0, 0, [], true, true⟩] 1
      (by decide) ⟨1, 5, [], 0, false, 0, 0, [], true, true⟩
      (by decide) rfl,
    deregister_spec.2.1
      [⟨1, 5, [], 0, false, 0, 0, [], true, true⟩,
       ⟨2, 5, [], 0, false, 0, 0, [], true, true⟩] 1
      ⟨2, 5, [], 0, false, 0, 0, [], true, true⟩
      (by decide) (by decide)⟩

/-! ## Presence throttle -/

/-- Counterexample for C3: with `CLOUD_SERVER` unset, a call a full minute
after the last recorded update issues no status update at all, so "a call
made 60 or more seconds after the last recorded update issues one status
update" fails as stated. -/
theorem presence_skipped_when_cloud_unset :
    update_presence false 60 0 3 = (60, none) ∧ 60 - 0 ≥ 60 := by
  constructor
  · rw [update_presence, if_neg (by omega)]
    rfl
  · omega

/-- C3 (amended: the status update is only issued when the `CLOUD_SERVER`
environment variable is set): a call less than 60 seconds after the last
recorded update is a no-op; a call 60 or more seconds after it issues one
status update summarizing the connected-instance count and records the new
timestamp; hence (cloud set) two calls within 60 seconds of each other
produce exactly one underlying status update and a third call after the
cooldown elapses produces a second one. -/
theorem update_presence_throttle :
    (∀ (cloud : Bool) (now last n : Nat), last ≤ now → now - last < 60 →
      update_presence cloud now last n = (last, none)) ∧
    (∀ (now last n : Nat), last ≤ now → 60 ≤ now - last →
      update_presence true now last n = (now, some (presenceText n))) ∧
    (∀ (t0 t1 t2 last n0 n1 n2 : Nat),
      last ≤ t0 → 60 ≤ t0 - last → t0 ≤ t1 → t1 - t0 < 60 → 60 ≤ t2 - t0 →
      update_presence true t0 last n0 = (t0, some (presenceText n0)) ∧
      update_presence true t1 t0 n1 = (t0, none) ∧
      update_presence true t2 t0 n2 = (t2, some (presenceText n2))) := by
  have hskip : ∀ (cloud : Bool) (now last n : Nat), last ≤ now →
      now - last < 60 → update_presence cloud now last n = (last, none) := by
    intro cloud now last n _ h60
    rw [update_presence, if_pos h60]
  have hfire : ∀ (now last n : Nat), last ≤ now → 60 ≤ now - last →
      update_presence true now last n = (now, some (presenceText n)) := by
    intro now last n _ h60
    rw [update_presence, if_neg (by omega)]
    rfl
  refine ⟨hskip, hfire, ?_⟩
  intro t0 t1 t2 last n0 n1 n2 h1 h2 h3 h4 h5
  exact ⟨hfire t0 last n0 h1 h2, hskip true t1 t0 n1 h3 h4,
    hfire t2 t0 n2 (by omega) h5⟩

/-- Witness for C3 at `last = 0`, calls at 60, 90 and 120 seconds. -/
theorem update_presence_throttle_witness :
    update_presence true 60 0 4 = (60, some (presenceText 4)) ∧
    update_presence true 90 60 4 = (60, none) ∧
    update_presence true 120 60 4 = (120, some (presenceText 4)) :=
  update_presence_throttle.2.2 60 90 120 0 4 4 4
    (by decide) (by decide) (by decide) (by decide) (by decide)

/-- C9: with `CLOUD_SERVER` unset, a call after the cooldown has elapsed
issues no status update at all yet still records the current time as the
last-update timestamp, so the 60-second window restarts even though nothing
was sent. -/
theorem update_presence_no_cloud (now last n : Nat) (_hle : last ≤ now)
    (h60 : 60 ≤ now - last) :
    update_presence false now last n = (now, none) := by
  rw [update_presence, if_neg (by omega)]
  rfl

/-- Witness for C9 at `now = 200`, `last = 100`. -/
theorem update_presence_no_cloud_witness :
    update_presence false 200 100 7 = (200, none) :=
  update_presence_no_cloud 200 100 7 (by decide) (by decide)

/-! ## The connection loop: fuel-irrelevance and the frame step -/

/-- One unfolding of `connLoop` on a stream holding at least the 4 length
bytes. -/
theorem connLoop_succ (env : Env) (decode : List Nat → Option Response)
    (sendOk : Nat → Nat → Bool) (fuel k : Nat) (b0 b1 b2 b3 : Nat)
    (rest : List Nat) (s : DiscordSettings) :
    connLoop env decode sendOk (fuel + 1) k (b0 :: b1 :: b2 :: b3 :: rest) s =
      if rest.length < decodeLE32 b0 b1 b2 b3 then (s, .readDataErr)
      else
        match decode (rest.take (decodeLE32 b0 b1 b2 b3)) with
        | none => (s, .parseErr)
        | some response =>
            let tr := handle_task env (sendOk k) s response
            if tr.ok then
              connLoop env decode sendOk fuel (k + 1)
                (rest.drop (decodeLE32 b0 b1 b2 b3)) tr.settings
            else (tr.settings, .dispatchErr) := rfl

theorem connLoop_fuel (env : Env) (decode : List Nat → Option Response)
    (sendOk : Nat → Nat → Bool) :
    ∀ (fuel k : Nat) (stream : List Nat) (s : DiscordSettings),
      stream.length < fuel →
      connLoop env decode sendOk fuel k stream s =
        connection_loop env decode sendOk k stream s := by
  intro fuel
  induction fuel using Nat.strong_induction_on with
  | _ fuel ih =>
    intro k stream s hs
    rcases fuel with _ | fuel
    · omega
    · rcases stream with _ | ⟨b0, _ | ⟨b1, _ | ⟨b2, _ | ⟨b3, rest⟩⟩⟩⟩
      · rfl
      · rfl
      · rfl
      · rfl
      · simp only [List.length_cons] at hs
        show connLoop env decode sendOk (fuel + 1) k
            (b0 :: b1 :: b2 :: b3 :: rest) s =
          connLoop env decode sendOk ((b0 :: b1 :: b2 :: b3 :: rest).length + 1)
            k (b0 :: b1 :: b2 :: b3 :: rest) s
        simp only [List.length_cons]
        rw [connLoop_succ, connLoop_succ]
        split
        · rfl
        · split
          · rfl
          · rename_i response heq
            simp only []
            split
            · rw [ih fuel (by omega) (k + 1)
                  (rest.drop (decodeLE32 b0 b1 b2 b3))
                  (handle_task env (sendOk k) s response).settings
                  (by have := List.length_drop (decodeLE32 b0 b1 b2 b3) rest; omega),
                ih (rest.length + 1 + 1 + 1 + 1) (by omega) (k + 1)
                  (rest.drop (decodeLE32 b0 b1 b2 b3))
                  (handle_task env (sendOk k) s response).settings
                  (by have := List.length_drop (decodeLE32 b0 b1 b2 b3) rest; omega)]
            · rfl

/-- Reading one well-formed frame advances the loop exactly as the dispatch
says: parse failure exits with `parseErr`, dispatch failure exits with
`dispatchErr` and remaining bytes unread, success continues on the rest of
the stream with the updated session. -/
theorem connection_loop_step (env : Env) (decode : List Nat → Option Response)
    (sendOk : Nat → Nat → Bool) (k : Nat) (p rest : List Nat)
    (s : DiscordSettings) (hp : p.length < 2 ^ 32) :
    connection_loop env decode sendOk k (writeFrame p ++ rest) s =
      match decode p with
      | none => (s, .parseErr)
      | some response =>
          if (handle_task env (sendOk k) s response).ok then
            connection_loop env decode sendOk (k + 1) rest
              (handle_task env (sendOk k) s response).settings
          else ((handle_task env (sendOk k) s response).settings, .dispatchErr) := by
  have hw : writeFrame p ++ rest =
      p.length % 256 :: (p.length / 256 % 256) :: (p.length / 2 ^ 16 % 256) ::
        (p.length / 2 ^ 24 % 256) :: (p ++ rest) := by
    simp [writeFrame, encodeLE32]
  rw [connection_loop, hw]
  simp only [List.length_cons]
  rw [connLoop_succ]
  rw [decodeLE32_encodeLE32 p.length hp]
  rw [if_neg (by simp)]
  rw [List.take_left, List.drop_left]
  rcases hdec : decode p with _ | response
  · rfl
  · simp only []
    split
    · rw [connLoop_fuel env decode sendOk ((p ++ rest).length + 1 + 1 + 1 + 1)
        (k + 1) rest (handle_task env (sendOk k) s response).settings
        (by simp; omega)]
    · rfl

/-! ## Counters -/

theorem handle_task_counters (env : Env) (sendOk : Nat → Bool)
    (s : DiscordSettings) (r : Response) :
    (handle_task env sendOk s r).settings.num_messages = s.num_messages + 1 ∧
    (handle_task env sendOk s r).settings.total_data =
      s.total_data + env.computeSize r := by
  rcases r with ⟨_ | (pf | em | pr | st)⟩
  · exact ⟨rfl, rfl⟩
  · exact ⟨rfl, rfl⟩
  · exact ⟨rfl, rfl⟩
  · rcases hcl : env.cloudServer <;> refine ⟨?_, ?_⟩ <;>
      simp [handle_task, hcl]
  · exact ⟨rfl, rfl⟩

theorem connLoop_counters_mono (env : Env) (decode : List Nat → Option Response)
    (sendOk : Nat → Nat → Bool) :
    ∀ (fuel k : Nat) (stream : List Nat) (s : DiscordSettings),
      s.num_messages ≤ (connLoop env decode sendOk fuel k stream s).1.num_messages ∧
      s.total_data ≤ (connLoop env decode sendOk fuel k stream s).1.total_data := by
  intro fuel
  induction fuel with
  | zero => intro k stream s; exact ⟨le_refl _, le_refl _⟩
  | succ fuel ih =>
    intro k stream s
    rcases stream with _ | ⟨b0, _ | ⟨b1, _ | ⟨b2, _ | ⟨b3, rest⟩⟩⟩⟩
    · exact ⟨le_refl _, le_refl _⟩
    · exact ⟨le_refl _, le_refl _⟩
    · exact ⟨le_refl _, le_refl _⟩
    · exact ⟨le_refl _, le_refl _⟩
    · rw [connLoop_succ]
      split
      · exact ⟨le_refl _, le_refl _⟩
      · split
        · exact ⟨le_refl _, le_refl _⟩
        · rename_i response heq
          simp only []
          have hc := handle_task_counters env (sendOk k) s response
          split
          · have hrec := ih (k + 1) (rest.drop (decodeLE32 b0 b1 b2 b3))
              (handle_task env (sendOk k) s response).settings
            exact ⟨by omega, by omega⟩
          · dsimp only
            exact ⟨by omega, by omega⟩

/-- C8: the message counter and the cumulative byte counter never decrease:
`handle_task` increments the message counter by exactly one per inbound frame
and adds the frame's computed size to the byte counter, the connection loop
only ever grows both, and outbound routing leaves both counters unchanged. -/
theorem counters_monotonic :
    (∀ (env : Env) (sendOk : Nat → Bool) (s : DiscordSettings) (r : Response),
      (handle_task env sendOk s r).settings.num_messages = s.num_messages + 1 ∧
      (handle_task env sendOk s r).settings.total_data =
        s.total_data + env.computeSize r) ∧
    (∀ (env : Env) (decode : List Nat → Option Response)
        (sendOk : Nat → Nat → Bool) (k : Nat) (stream : List Nat)
        (s : DiscordSettings),
      s.num_messages ≤
        (connection_loop env decode sendOk k stream s).1.num_messages ∧
      s.total_data ≤ (connection_loop env decode sendOk k stream s).1.total_data) ∧
    (∀ (channel : Nat) (lengthBuf data : List Nat) (cl : DiscordSettings),
      (sendDataClient channel lengthBuf data cl).1.num_messages =
        cl.num_messages ∧
      (sendDataClient channel lengthBuf data cl).1.total_data = cl.total_data) := by
  refine ⟨handle_task_counters, ?_, ?_⟩
  · intro env decode sendOk k stream s
    exact connLoop_counters_mono env decode sendOk (stream.length + 1) k stream s
  · intro channel lengthBuf data cl
    unfold sendDataClient
    split_ifs <;> exact ⟨rfl, rfl⟩

/-- C10: a decoded `Response` whose payload field is absent dispatches
successfully: the message and byte counters are incremented, no chat-platform
call is attempted, no other session field changes, and the connection loop
carries on with the remaining stream. -/
theorem none_field_dispatch :
    (∀ (env : Env) (sendOk : Nat → Bool) (s : DiscordSettings),
      handle_task env sendOk s ⟨none⟩ =
        ⟨{ s with num_messages := s.num_messages + 1,
                  total_data := s.total_data + env.computeSize ⟨none⟩ },
          true, 0⟩) ∧
    (∀ (env : Env) (decode : List Nat → Option Response)
        (sendOk : Nat → Nat → Bool) (k : Nat) (p rest : List Nat)
        (s : DiscordSettings),
      p.length < 2 ^ 32 → decode p = some ⟨none⟩ →
      connection_loop env decode sendOk k (writeFrame p ++ rest) s =
        connection_loop env decode sendOk (k + 1) rest
          { s with num_messages := s.num_messages + 1,
                   total_data := s.total_data + env.computeSize ⟨none⟩ }) := by
  refine ⟨fun _ _ _ => rfl, ?_⟩
  intro env decode sendOk k p rest s hp hdec
  rw [connection_loop_step env decode sendOk k p rest s hp, hdec]
  rfl

/-- Witness for C10: a concrete empty-payload frame between two read-error
streams: the loop continues past the frame with the counters bumped. -/
theorem none_field_dispatch_witness :
    ([1].length < 2 ^ 32 ∧
      (fun buf => if buf = [1] then some (⟨none⟩ : Response) else none) [1] =
        some ⟨none⟩) ∧
    connection_loop
        ⟨false, 10, fun e => [e], fun _ => 3⟩
        (fun buf => if buf = [1] then some ⟨none⟩ else none)
        (fun _ _ => true) 0 (writeFrame [1] ++ [])
        ⟨7, 5, [], 0, false, 0, 0, [], true, true⟩ =
      connection_loop
        ⟨false, 10, fun e => [e], fun _ => 3⟩
        (fun buf => if buf = [1] then some ⟨none⟩ else none)
        (fun _ _ => true) 1 []
        ⟨7, 5, [], 0, false, 1, 3, [], true, true⟩ :=
  ⟨⟨by decide, by decide⟩,
    none_field_dispatch.2
      ⟨false, 10, fun e => [e], fun _ => 3⟩
      (fun buf => if buf = [1] then some ⟨none⟩ else none)
      (fun _ _ => true) 0 [1] []
      ⟨7, 5, [], 0, false, 0, 0, [], true, true⟩
      (by decide) (by decide)⟩

/-! ## Delivery failures terminate the connection -/

/-- Counterexample for C1: with every platform send failing, a stream holding
two frames that each decode to a `File` payload makes the loop exit with
`dispatchErr` after the first frame (the second frame is never processed:
the message counter stays at 1), and `run` then removes the session from the
registry (only the unrelated session on the same channel remains). So a
failed delivery does terminate the connection and deregister the session,
contrary to the claim. -/
theorem delivery_error_counterexample :
    (connection_loop ⟨false, 100, fun e => [e], fun _ => 10⟩
        (fun buf => if buf = [1] then
          some ⟨some (.File ⟨['f'], [2, 3]⟩)⟩ else none)
        (fun _ _ => false) 0 (writeFrame [1] ++ writeFrame [1])
        ⟨7, 5, [], 0, false, 0, 0, [], true, true⟩).2 = .dispatchErr ∧
    (connection_loop ⟨false, 100, fun e => [e], fun _ => 10⟩
        (fun buf => if buf = [1] then
          some ⟨some (.File ⟨['f'], [2, 3]⟩)⟩ else none)
        (fun _ _ => false) 0 (writeFrame [1] ++ writeFrame [1])
        ⟨7, 5, [], 0, false, 0, 0, [], true, true⟩).1.num_messages = 1 ∧
    (run_connection ⟨false, 100, fun e => [e], fun _ => 10⟩
        (fun buf => if buf = [1] then
          some ⟨some (.File ⟨['f'], [2, 3]⟩)⟩ else none)
        (fun _ _ => false)
        [⟨8, 5, [], 0, false, 0, 0, [], true, true⟩]
        (writeFrame [1] ++ writeFrame [1])
        ⟨7, 5, [], 0, false, 0, 0, [], true, true⟩).1 =
      [⟨8, 5, [], 0, false, 0, 0, [], true, true⟩] := by
  refine ⟨?_, ?_, ?_⟩ <;> decide

/-- C1 (amended): a failed delivery to the chat platform while dispatching a
File or Embed payload is logged and terminates that session's connection:
the frame-processing loop exits with `dispatchErr` at that frame, subsequent
frames are not processed, and `run` then deregisters the session. -/
theorem delivery_error_terminates :
    (∀ (env : Env) (decode : List Nat → Option Response)
        (sendOk : Nat → Nat → Bool) (k : Nat) (p rest : List Nat)
        (s : DiscordSettings) (r : Response),
      p.length < 2 ^ 32 → decode p = some r →
      (handle_task env (sendOk k) s r).ok = false →
      connection_loop env decode sendOk k (writeFrame p ++ rest) s =
        ((handle_task env (sendOk k) s r).settings, .dispatchErr)) ∧
    (∀ (env : Env) (decode : List Nat → Option Response)
        (sendOk : Nat → Nat → Bool) (clients : List DiscordSettings)
        (stream : List Nat) (settings : DiscordSettings),
      (run_connection env decode sendOk clients stream settings).1 =
        deregister (register clients settings) settings.id) := by
  refine ⟨?_, fun _ _ _ _ _ _ => rfl⟩
  intro env decode sendOk k p rest s r hp hdec hfail
  rw [connection_loop_step env decode sendOk k p rest s hp, hdec]
  simp only []
  rw [if_neg (by rw [hfail]; exact Bool.false_ne_true)]

/-- Witness for the amended C1 at a concrete failing `File` dispatch. -/
theorem delivery_error_terminates_witness :
    connection_loop ⟨false, 100, fun e => [e], fun _ => 10⟩
        (fun buf => if buf = [1] then
          some ⟨some (.File ⟨['g'], [2, 3]⟩)⟩ else none)
        (fun _ _ => false) 0 (writeFrame [1] ++ writeFrame [1])
        ⟨7, 5, [], 0, false, 0, 0, [], true, true⟩ =
      ((handle_task ⟨false, 100, fun e => [e], fun _ => 10⟩
          ((fun _ _ => false) 0)
          ⟨7, 5, [], 0, false, 0, 0, [], true, true⟩
          ⟨some (.File ⟨['g'], [2, 3]⟩)⟩).settings, .dispatchErr) :=
  delivery_error_terminates.1 ⟨false, 100, fun e => [e], fun _ => 10⟩
    (fun buf => if buf = [1] then
      some ⟨some (.File ⟨['g'], [2, 3]⟩)⟩ else none)
    (fun _ _ => false) 0 [1] (writeFrame [1])
    ⟨7, 5, [], 0, false, 0, 0, [], true, true⟩
    ⟨some (.File ⟨['g'], [2, 3]⟩)⟩
    (by decide) (by decide) (by decide)

/-! ## File splitting -/

theorem chunksScan_nil (ceiling : Nat) : ∀ fuel, chunksScan ceiling fuel [] = [] := by
  intro fuel
  cases fuel <;> rfl

theorem chunksScan_flatten (ceiling : Nat) :
    ∀ (fuel : Nat) (data : List Nat), data.length ≤ fuel →
      (chunksScan ceiling fuel data).flatten = data := by
  intro fuel
  induction fuel with
  | zero =>
    intro data h
    have hnil : data = [] := by cases data <;> simp_all
    subst hnil
    rfl
  | succ fuel ih =>
    intro data h
    rcases data with _ | ⟨x, xs⟩
    · rfl
    · simp only [chunksScan, List.flatten_cons]
      rw [ih (xs.drop (ceiling - 1))
        (by have := List.length_drop (ceiling - 1) xs; simp at h; omega)]
      simp [List.take_append_drop]

theorem chunksScan_le (ceiling : Nat) (hC : 0 < ceiling) :
    ∀ (fuel : Nat) (data : List Nat),
      ∀ chunk ∈ chunksScan ceiling fuel data, chunk.length ≤ ceiling := by
  intro fuel
  induction fuel with
  | zero => intro data chunk hm; simp [chunksScan] at hm
  | succ fuel ih =>
    intro data chunk hm
    rcases data with _ | ⟨x, xs⟩
    · simp [chunksScan] at hm
    · simp only [chunksScan, List.mem_cons] at hm
      rcases hm with rfl | hm
      · simp only [List.length_cons, List.length_take]
        omega
      · exact ih _ chunk hm

theorem chunksScan_count (ceiling : Nat) (hC : 0 < ceiling) :
    ∀ (fuel : Nat) (data : List Nat), data.length ≤ fuel → 0 < data.length →
      (chunksScan ceiling fuel data).length =
        (data.length + ceiling - 1) / ceiling := by
  intro fuel
  induction fuel with
  | zero => intro data h h0; omega
  | succ fuel ih =>
    intro data h h0
    rcases data with _ | ⟨x, xs⟩
    · simp at h0
    · simp only [chunksScan, List.length_cons]
      by_cases hn : xs.length + 1 ≤ ceiling
      · rw [List.drop_eq_nil_of_le (by omega), chunksScan_nil]
        simp only [List.length_nil, Nat.zero_add]
        rw [Nat.div_eq_of_lt_le
          (by omega : 1 * ceiling ≤ xs.length + 1 + ceiling - 1)
          (by omega : xs.length + 1 + ceiling - 1 < (1 + 1) * ceiling)]
      · have hdl : (xs.drop (ceiling - 1)).length = xs.length - (ceiling - 1) :=
          List.length_drop _ _
        rw [ih (xs.drop (ceiling - 1)) (by simp at h ⊢; omega) (by simp; omega)]
        rw [hdl]
        rw [show xs.length - (ceiling - 1) + ceiling - 1 = xs.length by omega,
          show xs.length + 1 + ceiling - 1 = xs.length + ceiling by omega]
        rw [Nat.add_div_right _ hC]

/-- C6 (spec-modelled: `split_file` is in `src/embedbuilder.rs`, which is not
among the sources): splitting a file of size `S > 0` with ceiling `C > 0`
produces exactly `ceil(S/C)` ordered chunks, each at most `C` bytes;
concatenating the chunk bytes in order reproduces the original bytes; and a
file with `S ≤ C` yields exactly one chunk labelled with the unmodified
filename. -/
theorem splitFile_spec (ceiling : Nat) (filename : List Char) (data : List Nat)
    (hC : 0 < ceiling) (hS : 0 < data.length) :
    (splitFile ceiling filename data).length =
      (data.length + ceiling - 1) / ceiling ∧
    ((splitFile ceiling filename data).map Prod.snd).flatten = data ∧
    (∀ p ∈ splitFile ceiling filename data, p.2.length ≤ ceiling) ∧
    (data.length ≤ ceiling → splitFile ceiling filename data = [(filename, data)]) := by
  unfold splitFile
  by_cases hle : data.length ≤ ceiling
  · rw [if_pos hle]
    refine ⟨?_, by simp, ?_, fun _ => rfl⟩
    · simp only [List.length_singleton]
      rw [Nat.div_eq_of_lt_le
        (by omega : 1 * ceiling ≤ data.length + ceiling - 1)
        (by omega : data.length + ceiling - 1 < (1 + 1) * ceiling)]
    · intro p hp
      simp at hp
      rw [hp]
      exact hle
  · rw [if_neg hle]
    have hsnd : ((chunksOf ceiling data).enum.map
        (fun p => (partLabel filename (p.1 + 1)
          (chunksOf ceiling data).length, p.2))).map Prod.snd =
        chunksOf ceiling data := by
      rw [List.map_map]
      have : (Prod.snd ∘ fun p : Nat × List Nat =>
          (partLabel filename (p.1 + 1) (chunksOf ceiling data).length, p.2)) =
          Prod.snd := by
        funext p
        rfl
      rw [this, List.enum_map_snd]
    refine ⟨?_, ?_, ?_, fun hcon => absurd hcon hle⟩
    · simp only [List.length_map, List.enum_length]
      exact chunksScan_count ceiling hC data.length data (le_refl _) hS
    · rw [hsnd]
      exact chunksScan_flatten ceiling data.length data (le_refl _)
    · intro p hp
      have : p.2 ∈ chunksOf ceiling data := by
        rw [← hsnd]
        exact List.mem_map_of_mem Prod.snd hp
      exact chunksScan_le ceiling hC data.length data p.2 this

/-- Witness for C6: a 3-byte file split with ceiling 2 gives two chunks that
concatenate back to the original, and a 2-byte file with ceiling 2 stays
whole under its original name. -/
theorem splitFile_spec_witness :
    ((splitFile 2 ['f'] [1, 2, 3]).length = 2 ∧
      ((splitFile 2 ['f'] [1, 2, 3]).map Prod.snd).flatten = [1, 2, 3]) ∧
    splitFile 2 ['g'] [4, 5] = [(['g'], [4, 5])] := by
  have h1 := splitFile_spec 2 ['f'] [1, 2, 3] (by decide) (by decide)
  have h2 := splitFile_spec 2 ['g'] [4, 5] (by decide) (by decide)
  exact ⟨⟨h1.1, h1.2.1⟩, h2.2.2.2 (by decide)⟩

end DiscordShim
